import Mathlib

/-!
Verification of the storm-data GraphQL API service.

This file gives a shallow embedding, in Lean, of the core data path of the
service: the record model and its enums (`internal/model`), the filter
validator (`internal/graph/validation.go`), the filter-to-SQL compiler
(`internal/store/filter.go`), the list and aggregation store operations
(`internal/store/store.go`, `internal/store/aggregations.go`), the depth
limit on GraphQL operations (`internal/graph/depth.go`), and the batching
Kafka consumer (`internal/kafka/batch_consumer.go`).  Go `float64` values
are modelled as rationals, `time.Time` instants as integers, and the Go
standard-library trigonometric functions are threaded as an explicit
parameter so that no numeric fact is assumed about them.  Stateful code is
modelled by explicit state passing (the validator returns the updated
filter, the consumer's batch processing returns the ordered list of the
side effects it issues).
-/

namespace Storm

/-- A Go `time.Time` instant, modelled as an integer (nanoseconds since the
epoch).  `t2.After(t1)` in Go corresponds to `t1 < t2` here. -/
abbrev GoTime := Int

/-- Go `float64`, modelled as a rational number.  The source only compares,
adds, subtracts, multiplies and divides these values. -/
abbrev GoFloat := ℚ

/-- The trigonometric operations of the Go `math` package that the filter
compiler uses.  They are threaded as an explicit parameter: no claim in this
file depends on their values, so any function can be supplied. -/
structure GoMath where
  cos : GoFloat → GoFloat
  pi : GoFloat

/- ─── Record model (internal/model/models.go) ─────────────────────────── -/

/-- `model.EventType` is a string type over the enum values
`HAIL`, `WIND`, `TORNADO`. -/
abbrev EventType := String

/-- `EventType.IsValid`: true if the event type is a known enum value. -/
def EventType.isValid (e : EventType) : Bool :=
  e == "HAIL" || e == "WIND" || e == "TORNADO"

/-- `EventType.DBValue`: the lowercase DB representation of the event type. -/
def EventType.dbValue (e : EventType) : String := e.toLower

/-- `model.Severity` is a string type over the enum values
`MINOR`, `MODERATE`, `SEVERE`, `EXTREME`. -/
abbrev Severity := String

/-- `Severity.IsValid`: true if the severity is a known enum value. -/
def Severity.isValid (e : Severity) : Bool :=
  e == "MINOR" || e == "MODERATE" || e == "SEVERE" || e == "EXTREME"

/-- `Severity.DBValue`: the lowercase DB representation of the severity. -/
def Severity.dbValue (e : Severity) : String := e.toLower

/-- `model.SortField` is a string type over the enum values below. -/
abbrev SortField := String

/-- `SortField.IsValid`. -/
def SortField.isValid (e : SortField) : Bool :=
  e == "EVENT_TIME" || e == "MAGNITUDE" || e == "LOCATION_STATE" || e == "EVENT_TYPE"

/-- `model.SortOrder` is a string type over `ASC` and `DESC`. -/
abbrev SortOrder := String

/-- `SortOrder.IsValid`. -/
def SortOrder.isValid (e : SortOrder) : Bool :=
  e == "ASC" || e == "DESC"

/-- `model.Geo`: latitude and longitude coordinates. -/
structure Geo where
  lat : GoFloat
  lon : GoFloat
deriving Repr, DecidableEq

/-- `model.Measurement`: magnitude, unit and optional severity.  The Go
field `Severity *string` is modelled as `Option String`. -/
structure Measurement where
  magnitude : GoFloat
  unit : String
  severity : Option String
deriving Repr, DecidableEq

/-- `model.Location`: where a storm event occurred. -/
structure Location where
  raw : String
  name : String
  distance : Option GoFloat
  direction : Option String
  state : String
  county : String
deriving Repr, DecidableEq

/-- `model.Geocoding`: geocoding enrichment results (all fields
zero-valued when geocoding is disabled). -/
structure Geocoding where
  formattedAddress : String
  placeName : String
  confidence : GoFloat
  source : String
deriving Repr, DecidableEq

/-- `model.StormReport`: one severe weather event as consumed from Kafka.
Note that `EventType` is a plain Go `string` field on this struct (tag
`event_type`); the enum type `model.EventType` is used only by the GraphQL
filter inputs. `time.Time` fields are modelled as RFC 3339 strings because
the consumer only ever decodes them from JSON. -/
structure StormReport where
  id : String
  eventType : String
  geo : Geo
  measurement : Measurement
  eventTime : String
  location : Location
  comments : String
  sourceOffice : String
  timeBucket : String
  processedAt : String
  geocoding : Geocoding
deriving Repr, DecidableEq

/-- `model.TimeRange`: a required time window (`from` / `to` in Go). -/
structure TimeRange where
  fromTime : GoTime
  toTime : GoTime
deriving Repr, DecidableEq

/-- `model.GeoRadiusFilter`: a geographic radius filter with an optional
radius (Go `RadiusMiles *float64`). -/
structure GeoRadiusFilter where
  lat : GoFloat
  lon : GoFloat
  radiusMiles : Option GoFloat
deriving Repr, DecidableEq

/-- `model.EventTypeFilter`: per-type overrides for severity, magnitude and
radius. -/
structure EventTypeFilter where
  eventType : EventType
  severity : List Severity
  minMagnitude : Option GoFloat
  radiusMiles : Option GoFloat
deriving Repr, DecidableEq

/-- `model.StormReportFilter`: time range, event, location, sorting and
pagination criteria. -/
structure StormReportFilter where
  timeRange : TimeRange
  near : Option GeoRadiusFilter := none
  states : List String := []
  counties : List String := []
  eventTypes : List EventType := []
  severity : List Severity := []
  minMagnitude : Option GoFloat := none
  eventTypeFilters : List EventTypeFilter := []
  sortBy : Option SortField := none
  sortOrder : Option SortOrder := none
  limit : Option Int := none
  offset : Option Int := none
deriving Repr, DecidableEq

/- ─── Depth limit (internal/graph/depth.go) ───────────────────────────── -/

/-- A GraphQL selection, modelling `ast.Selection` of gqlparser as consumed
by `queryDepth`: a field with a name and sub-selections, an inline fragment,
or a fragment spread whose definition pointer may be nil. -/
inductive Selection : Type where
  | field (name : String) (sub : List Selection)
  | inlineFragment (sub : List Selection)
  | fragmentSpread (defn : Option (List Selection))

mutual

/-- The depth contributed by one child selection inside `queryDepth`'s loop
(the `switch` over the selection kinds). -/
def selChildDepth : Selection → Nat
  | .field _ sub => queryDepth sub
  | .inlineFragment sub => queryDepth sub
  | .fragmentSpread (some d) => queryDepth d
  | .fragmentSpread none => 0

/-- The running maximum of the child depths over a selection set
(`maxChild` in the Go loop). -/
def maxChildDepth : List Selection → Nat
  | [] => 0
  | s :: ss => max (selChildDepth s) (maxChildDepth ss)

/-- `queryDepth` computes the deepest nesting level in a selection set:
`0` for an empty set, otherwise one more than the largest child depth (the
non-empty case unfolds `maxChildDepth` one step so the recursion is
structural). -/
def queryDepth (selSet : List Selection) : Nat :=
  match selSet with
  | [] => 0
  | s :: ss => 1 + max (selChildDepth s) (maxChildDepth ss)

end

/-- The check `len(field.Name) >= 2 && field.Name[0] == '_' && field.Name[1] == '_'`
from `isIntrospectionQuery`. -/
def startsWithDunder (name : String) : Bool :=
  match name.data with
  | c1 :: c2 :: _ => c1 == '_' && c2 == '_'
  | _ => false

/-- `isIntrospectionQuery`: some top-level selection is a field whose name
begins with two underscores. -/
def isIntrospectionQuery (selSet : List Selection) : Bool :=
  selSet.any fun sel =>
    match sel with
    | .field name _ => startsWithDunder name
    | _ => false

/-- The outcome of `DepthLimit.InterceptOperation`: either the operation is
handed to the next handler, or it is rejected with a single error message. -/
inductive OperationResult : Type where
  | passthrough
  | rejected (message : String)
deriving Repr, DecidableEq

/-- The message produced by
`graphql.ErrorResponse(ctx, "query depth %d exceeds maximum allowed depth of %d", ...)`. -/
def depthErrorMessage (depth maxDepth : Nat) : String :=
  "query depth " ++ toString depth ++ " exceeds maximum allowed depth of " ++ toString maxDepth

/-- `DepthLimit.InterceptOperation`: skip the check for introspection
queries; otherwise reject when the operation's depth exceeds `MaxDepth`. -/
def interceptOperation (maxDepth : Nat) (selSet : List Selection) : OperationResult :=
  if isIntrospectionQuery selSet then .passthrough
  else
    let depth := queryDepth selSet
    if depth > maxDepth then .rejected (depthErrorMessage depth maxDepth)
    else .passthrough

/- ─── Filter validation (internal/graph/validation.go) ────────────────── -/

/-- Query protection limit `MaxEventTypeFilters`. -/
def MaxEventTypeFilters : Nat := 3

/-- Query protection limit `MaxPageSize`. -/
def MaxPageSize : Int := 20

/-- Query protection limit `MaxRadiusMiles` (a Go `float64`). -/
def MaxRadiusMiles : GoFloat := 200

/-- Query protection default `DefaultRadiusMiles` (a Go `float64`). -/
def DefaultRadiusMiles : GoFloat := 20

/-- The geo-radius step of `ValidateFilter`: when `near` is present, default
a missing `radiusMiles` to `DefaultRadiusMiles`, then reject a radius above
`MaxRadiusMiles` (the `%.0f` of `200.0` renders as `200`). -/
def validateNear (filter : StormReportFilter) : Except String StormReportFilter :=
  match filter.near with
  | none => .ok filter
  | some nf =>
      let r := nf.radiusMiles.getD DefaultRadiusMiles
      if r > MaxRadiusMiles then .error "near.radiusMiles exceeds maximum of 200"
      else .ok { filter with near := some { nf with radiusMiles := some r } }

/-- The per-entry loop of `ValidateFilter` over `eventTypeFilters`: reject a
duplicate `eventType` (tracked in the `seen` set) and a per-type radius
above `MaxRadiusMiles`.  `i` is the loop index used in the error text. -/
def checkEventTypeFilters : Nat → List EventType → List EventTypeFilter → Option String
  | _, _, [] => none
  | i, seen, etf :: rest =>
      if seen.contains etf.eventType then
        some ("eventTypeFilters[" ++ toString i ++ "]: duplicate eventType " ++ etf.eventType)
      else
        match etf.radiusMiles with
        | some r =>
            if r > MaxRadiusMiles then
              some ("eventTypeFilters[" ++ toString i ++ "]: radiusMiles exceeds maximum of 200")
            else checkEventTypeFilters (i + 1) (etf.eventType :: seen) rest
        | none => checkEventTypeFilters (i + 1) (etf.eventType :: seen) rest

/-- `ValidateFilter` validates a single filter, enforcing limits and
applying defaults.  The Go function mutates the filter in place; here the
updated filter is returned on success. -/
def validateFilter (filter : StormReportFilter) : Except String StormReportFilter :=
  if filter.timeRange.toTime ≤ filter.timeRange.fromTime then
    .error "timeRange.to must be after timeRange.from"
  else
    match validateNear filter with
    | .error e => .error e
    | .ok f1 =>
        if f1.eventTypeFilters.length > MaxEventTypeFilters then
          .error "at most 3 eventTypeFilters allowed"
        else
          match checkEventTypeFilters 0 [] f1.eventTypeFilters with
          | some e => .error e
          | none =>
              match f1.limit with
              | none => .ok { f1 with limit := some MaxPageSize }
              | some l =>
                  if l > MaxPageSize then .error "limit exceeds maximum of 20"
                  else .ok f1

/- ─── Per-type condition merging (internal/store/filter.go) ───────────── -/

/-- `typeCondition`: one event type together with the severity, magnitude
and radius predicates that apply to it. -/
structure TypeCondition where
  eventType : EventType
  severity : List Severity
  minMag : Option GoFloat
  radiusMiles : Option GoFloat
deriving Repr, DecidableEq

/-- The condition built for an explicit entry of `eventTypeFilters` in the
first loop of `collectTypeConditions`: each absent per-type field falls back
to the corresponding global field of the filter. -/
def overrideCondition (filter : StormReportFilter) (tf : EventTypeFilter) : TypeCondition :=
  { eventType := tf.eventType
    severity := if tf.severity.length > 0 then tf.severity else filter.severity
    minMag :=
      match tf.minMagnitude with
      | some m => some m
      | none => filter.minMagnitude
    radiusMiles :=
      match tf.radiusMiles with
      | some r => some r
      | none =>
          match filter.near with
          | some nf => nf.radiusMiles
          | none => none }

/-- The condition built for an event type of `eventTypes` that has no
override, in the second loop of `collectTypeConditions`: it carries exactly
the global severity, magnitude and radius. -/
def globalCondition (filter : StormReportFilter) (et : EventType) : TypeCondition :=
  { eventType := et
    severity := filter.severity
    minMag := filter.minMagnitude
    radiusMiles :=
      match filter.near with
      | some nf => nf.radiusMiles
      | none => none }

/-- The contents of the Go `overrideSet` map: the event types that appear in
`eventTypeFilters`.  The Go code fills the set during the first loop but
only reads it in the second, after it is complete. -/
def overriddenTypes (filter : StormReportFilter) : List EventType :=
  filter.eventTypeFilters.map (·.eventType)

/-- `collectTypeConditions` merges explicit per-type overrides with the
unoverridden entries of `eventTypes`: first one condition per entry of
`eventTypeFilters` (in order), then one purely-global condition per event
type of `eventTypes` that is not overridden (in order). -/
def collectTypeConditions (filter : StormReportFilter) : List TypeCondition :=
  filter.eventTypeFilters.map (overrideCondition filter) ++
    (filter.eventTypes.filter
      (fun et => !(overriddenTypes filter).contains et)).map (globalCondition filter)

/- ─── Filter-to-SQL compiler (internal/store/filter.go) ───────────────── -/

/-- Constant `earthRadiusMiles` of the haversine formula. -/
def earthRadiusMiles : GoFloat := 3959

/-- Constant `milesPerDegreeLat` of the bounding-box pre-filter. -/
def milesPerDegreeLat : GoFloat := 69

/-- One positional SQL argument, as appended to the `args` slice by the
compiler.  An `ANY(...)` array parameter is a single argument. -/
inductive Arg : Type where
  | timeVal (t : GoTime)
  | strVal (s : String)
  | strList (ss : List String)
  | floatVal (q : GoFloat)
  | intVal (n : Int)
deriving Repr, DecidableEq

/-- One atomic SQL predicate.  Each constructor corresponds to one
`fmt.Sprintf` pattern of the compiler; `i` is the first positional
placeholder the predicate mentions, and `render` below reproduces the exact
SQL text. -/
inductive Pred : Type where
  | timeGE (i : Nat)
  | timeLE (i : Nat)
  | stateAny (i : Nat)
  | countyAny (i : Nat)
  | eventTypeAny (i : Nat)
  | severityAny (i : Nat)
  | minMagGE (i : Nat)
  | eventTypeEq (i : Nat)
  | boundingBox (i : Nat)
  | haversine (i : Nat)
deriving Repr, DecidableEq

/-- One entry of the `where` clause slice: either an atomic predicate or
the per-type OR disjunction (a list of AND-joined predicate groups). -/
inductive Clause : Type where
  | atom (p : Pred)
  | orGroup (parts : List (List Pred))
deriving Repr, DecidableEq

/-- A positional placeholder `$i`. -/
def dollar (i : Nat) : String := "$" ++ toString i

/-- The SQL text of an atomic predicate, matching the `fmt.Sprintf` calls in
the source (Go renders the `float64` constant `3959.0` under `%v` as
`3959`). -/
def Pred.render : Pred → String
  | .timeGE i => "event_time >= " ++ dollar i
  | .timeLE i => "event_time <= " ++ dollar i
  | .stateAny i => "location_state = ANY(" ++ dollar i ++ ")"
  | .countyAny i => "location_county = ANY(" ++ dollar i ++ ")"
  | .eventTypeAny i => "event_type = ANY(" ++ dollar i ++ ")"
  | .severityAny i => "measurement_severity = ANY(" ++ dollar i ++ ")"
  | .minMagGE i => "measurement_magnitude >= " ++ dollar i
  | .eventTypeEq i => "event_type = " ++ dollar i
  | .boundingBox i =>
      "geo_lat BETWEEN " ++ dollar i ++ " AND " ++ dollar (i + 1) ++
        " AND geo_lon BETWEEN " ++ dollar (i + 2) ++ " AND " ++ dollar (i + 3)
  | .haversine i =>
      "(\n\t\t3959 * acos(\n\t\t\tcos(radians(" ++ dollar i ++
        ")) * cos(radians(geo_lat)) *\n\t\t\tcos(radians(geo_lon) - radians(" ++
        dollar (i + 1) ++ ")) +\n\t\t\tsin(radians(" ++ dollar (i + 2) ++
        ")) * sin(radians(geo_lat))\n\t\t)\n\t) <= " ++ dollar (i + 3)

/-- The SQL text of one `where` entry; the OR disjunction is rendered as in
`buildEventTypeConditions` and `buildSingleTypeCondition` (each group
parenthesized and AND-joined, the groups OR-joined and parenthesized). -/
def Clause.render : Clause → String
  | .atom p => p.render
  | .orGroup parts =>
      "(" ++ String.intercalate " OR "
        (parts.map fun ps => "(" ++ String.intercalate " AND " (ps.map Pred.render) ++ ")") ++ ")"

/-- `buildWhereSQL` joins the clauses into a WHERE fragment. -/
def buildWhereSQL (clauses : List Clause) : String :=
  match clauses with
  | [] => ""
  | _ => " WHERE " ++ String.intercalate " AND " (clauses.map Clause.render)

/-- The positional placeholders an atomic predicate mentions, in order. -/
def Pred.refs : Pred → List Nat
  | .timeGE i => [i]
  | .timeLE i => [i]
  | .stateAny i => [i]
  | .countyAny i => [i]
  | .eventTypeAny i => [i]
  | .severityAny i => [i]
  | .minMagGE i => [i]
  | .eventTypeEq i => [i]
  | .boundingBox i => [i, i + 1, i + 2, i + 3]
  | .haversine i => [i, i + 1, i + 2, i + 3]

/-- The positional placeholders one `where` entry mentions, in order. -/
def Clause.refs : Clause → List Nat
  | .atom p => p.refs
  | .orGroup parts => (parts.map fun ps => (ps.map Pred.refs).flatten).flatten

/-- The positional placeholders a whole clause list mentions, in order. -/
def clausesRefs (cls : List Clause) : List Nat :=
  (cls.map Clause.refs).flatten

/-- `buildBoundingBox` builds the lat/lon bounding-box clause for index
pre-filtering: one predicate using placeholders `idx .. idx+3`, four
arguments, next index `idx+4`. -/
def buildBoundingBox (gm : GoMath) (lat lon radiusMiles : GoFloat) (idx : Nat) :
    List Clause × List Arg × Nat :=
  let latDelta := radiusMiles / milesPerDegreeLat
  let lonDelta := radiusMiles / (milesPerDegreeLat * gm.cos (lat * gm.pi / 180))
  ([.atom (.boundingBox idx)],
   [.floatVal (lat - latDelta), .floatVal (lat + latDelta),
    .floatVal (lon - lonDelta), .floatVal (lon + lonDelta)],
   idx + 4)

/-- The result of `buildHaversine`: the clause, its args and the next
parameter index. -/
structure HaversineResult where
  clause : Pred
  args : List Arg
  nextIdx : Nat
deriving Repr, DecidableEq

/-- `buildHaversine` builds a haversine great-circle distance clause using
placeholders `idx .. idx+3` (latitude is passed twice). -/
def buildHaversine (lat lon radiusMiles : GoFloat) (idx : Nat) : HaversineResult :=
  { clause := .haversine idx
    args := [.floatVal lat, .floatVal lon, .floatVal lat, .floatVal radiusMiles]
    nextIdx := idx + 4 }

/-- `buildGeoClause` builds bounding-box plus haversine clauses for a single
radius filter; a nil radius contributes nothing. -/
def buildGeoClause (gm : GoMath) (lat lon : GoFloat) (radiusMiles : Option GoFloat)
    (idx : Nat) : List Clause × List Arg × Nat :=
  match radiusMiles with
  | none => ([], [], idx)
  | some r =>
      let (bbWhere, bbArgs, bbIdx) := buildBoundingBox gm lat lon r idx
      let hav := buildHaversine lat lon r bbIdx
      (bbWhere ++ [.atom hav.clause], bbArgs ++ hav.args, hav.nextIdx)

/-- `eventTypeDBValues`: the lowercase DB values of a slice of event
types. -/
def eventTypeDBValues (types : List EventType) : List String :=
  types.map EventType.dbValue

/-- `severityDBValues`: the lowercase DB values of a slice of severities. -/
def severityDBValues (sevs : List Severity) : List String :=
  sevs.map Severity.dbValue

/-- `maxRadius` returns the largest radius across all type conditions, or 0
if none. -/
def maxRadius (conditions : List TypeCondition) : GoFloat :=
  conditions.foldl
    (fun largest tc =>
      match tc.radiusMiles with
      | some r => if r > largest then r else largest
      | none => largest)
    0

/-- `buildSingleTypeCondition` builds the AND-joined predicate group for one
event type condition, returning the group, its args and the next parameter
index. -/
def buildSingleTypeCondition (tc : TypeCondition) (near : Option GeoRadiusFilter)
    (idx : Nat) : List Pred × List Arg × Nat :=
  let parts : List Pred := [.eventTypeEq idx]
  let args : List Arg := [.strVal (EventType.dbValue tc.eventType)]
  let idx := idx + 1
  let (parts, args, idx) :=
    if tc.severity.length > 0 then
      (parts ++ [Pred.severityAny idx], args ++ [Arg.strList (severityDBValues tc.severity)],
       idx + 1)
    else (parts, args, idx)
  let (parts, args, idx) :=
    match tc.minMag with
    | some m => (parts ++ [Pred.minMagGE idx], args ++ [Arg.floatVal m], idx + 1)
    | none => (parts, args, idx)
  match near, tc.radiusMiles with
  | some nf, some r =>
      let hav := buildHaversine nf.lat nf.lon r idx
      (parts ++ [hav.clause], args ++ hav.args, hav.nextIdx)
  | _, _ => (parts, args, idx)

/-- The per-type OR loop of `buildEventTypeConditions`: build one group per
condition, appending each group's args to the running args slice. -/
def buildOrParts (near : Option GeoRadiusFilter) :
    List TypeCondition → List Arg → Nat → List (List Pred) × List Arg × Nat
  | [], args, idx => ([], args, idx)
  | tc :: rest, args, idx =>
      let (ps, tcArgs, nextIdx) := buildSingleTypeCondition tc near idx
      let (restParts, argsOut, idxOut) := buildOrParts near rest (args ++ tcArgs) nextIdx
      (ps :: restParts, argsOut, idxOut)

/-- `buildEventTypeConditions` builds the bounding-box and per-type OR
clauses for `eventTypeFilters`: if `near` is present and the largest
per-type radius is positive, one bounding box over that radius comes first;
then the OR disjunction over all collected type conditions. -/
def buildEventTypeConditions (gm : GoMath) (filter : StormReportFilter)
    (args : List Arg) (idx : Nat) : List Clause × List Arg × Nat :=
  let conditions := collectTypeConditions filter
  let (clauses, args, idx) :=
    match filter.near with
    | some nf =>
        let r := maxRadius conditions
        if r > 0 then
          let (bbWhere, bbArgs, bbIdx) := buildBoundingBox gm nf.lat nf.lon r idx
          (bbWhere, args ++ bbArgs, bbIdx)
        else ([], args, idx)
    | none => ([], args, idx)
  let (orParts, args, idx) := buildOrParts filter.near conditions args idx
  (clauses ++ [.orGroup orParts], args, idx)

/-- The simple AND branch of `buildWhereClause` (no `eventTypeFilters`):
the global `eventTypes`, `severity`, `minMagnitude` and geo predicates,
each appended when present.  Like `buildEventTypeConditions`, it returns
the added clauses, the extended args and the next parameter index. -/
def buildSimpleConditions (gm : GoMath) (filter : StormReportFilter)
    (args : List Arg) (idx : Nat) : List Clause × List Arg × Nat :=
  let (whereCls, args, idx) :=
    if filter.eventTypes.length > 0 then
      ([Clause.atom (.eventTypeAny idx)],
       args ++ [Arg.strList (eventTypeDBValues filter.eventTypes)], idx + 1)
    else (([] : List Clause), args, idx)
  let (whereCls, args, idx) :=
    if filter.severity.length > 0 then
      (whereCls ++ [Clause.atom (.severityAny idx)],
       args ++ [Arg.strList (severityDBValues filter.severity)], idx + 1)
    else (whereCls, args, idx)
  let (whereCls, args, idx) :=
    match filter.minMagnitude with
    | some m => (whereCls ++ [Clause.atom (.minMagGE idx)], args ++ [Arg.floatVal m], idx + 1)
    | none => (whereCls, args, idx)
  match filter.near with
  | some nf =>
      let (geoWhere, geoArgs, geoIdx) := buildGeoClause gm nf.lat nf.lon nf.radiusMiles idx
      (whereCls ++ geoWhere, args ++ geoArgs, geoIdx)
  | none => (whereCls, args, idx)

/-- `buildWhereClause` constructs the WHERE clause entries and args from a
filter, returning the clauses, the args and the next parameter index.  The
two time bounds always come first; then the administrative location
filters; then either the per-type branch (`eventTypeFilters` non-empty) or
the simple AND branch. -/
def buildWhereClause (gm : GoMath) (filter : StormReportFilter) :
    List Clause × List Arg × Nat :=
  let whereCls : List Clause := [.atom (.timeGE 1)]
  let args : List Arg := [.timeVal filter.timeRange.fromTime]
  let whereCls := whereCls ++ [Clause.atom (.timeLE 2)]
  let args := args ++ [Arg.timeVal filter.timeRange.toTime]
  let idx := 3
  let (whereCls, args, idx) :=
    if filter.states.length > 0 then
      (whereCls ++ [Clause.atom (.stateAny idx)], args ++ [Arg.strList filter.states], idx + 1)
    else (whereCls, args, idx)
  let (whereCls, args, idx) :=
    if filter.counties.length > 0 then
      (whereCls ++ [Clause.atom (.countyAny idx)], args ++ [Arg.strList filter.counties], idx + 1)
    else (whereCls, args, idx)
  if filter.eventTypeFilters.length > 0 then
    let (clause, newArgs, newIdx) := buildEventTypeConditions gm filter args idx
    (whereCls ++ clause, newArgs, newIdx)
  else
    let (clause, newArgs, newIdx) := buildSimpleConditions gm filter args idx
    (whereCls ++ clause, newArgs, newIdx)

/- ─── ListStormReports (internal/store/store.go) ──────────────────────── -/

/-- `sortColumn` maps validated SortField enum values to SQL column names;
anything else falls back to `event_time`. -/
def sortColumn (sf : SortField) : String :=
  match sf with
  | "EVENT_TIME" => "event_time"
  | "MAGNITUDE" => "measurement_magnitude"
  | "LOCATION_STATE" => "location_state"
  | "EVENT_TYPE" => "event_type"
  | _ => "event_time"

/-- The query-shaping part of `Store.ListStormReports`: the WHERE entries,
the argument vector of the `COUNT(*)` query, the argument vector of the
data query, the ORDER BY column and direction, and the positional
placeholders given to `LIMIT` and `OFFSET` when present. -/
structure ListQueryPlan where
  whereClauses : List Clause
  countArgs : List Arg
  dataArgs : List Arg
  orderCol : String
  orderDir : String
  limitPlaceholder : Option Nat
  offsetPlaceholder : Option Nat
deriving Repr, DecidableEq

/-- `Store.ListStormReports`, modelled up to the database round-trips: it
builds the WHERE clause, runs `COUNT(*)` with exactly the base args, and
runs the data query with the base args plus `LIMIT`/`OFFSET` values
appended (each taking the next parameter index). -/
def listStormReportsPlan (gm : GoMath) (filter : StormReportFilter) : ListQueryPlan :=
  let (whereCls, baseArgs, idx) := buildWhereClause gm filter
  let orderCol :=
    match filter.sortBy with
    | some sf => if SortField.isValid sf then sortColumn sf else "event_time"
    | none => "event_time"
  let orderDir :=
    match filter.sortOrder with
    | some so => if SortOrder.isValid so && so == "ASC" then "ASC" else "DESC"
    | none => "DESC"
  let dataArgs := baseArgs
  let (dataArgs, limitPh, idx) :=
    match filter.limit with
    | some l => (dataArgs ++ [Arg.intVal l], some idx, idx + 1)
    | none => (dataArgs, none, idx)
  let (dataArgs, offsetPh) :=
    match filter.offset with
    | some o => (dataArgs ++ [Arg.intVal o], some idx)
    | none => (dataArgs, none)
  { whereClauses := whereCls
    countArgs := baseArgs
    dataArgs := dataArgs
    orderCol := orderCol
    orderDir := orderDir
    limitPlaceholder := limitPh
    offsetPlaceholder := offsetPh }

/- ─── Aggregations (internal/store/aggregations.go) ───────────────────── -/

/-- `model.EventTypeGroup`. -/
structure EventTypeGroup where
  eventType : String
  count : Int
  maxMeasurement : Option Measurement
deriving Repr, DecidableEq

/-- `model.CountyGroup`. -/
structure CountyGroup where
  county : String
  count : Int
deriving Repr, DecidableEq

/-- `model.StateGroup`: a state with its total count and county
breakdown. -/
structure StateGroup where
  state : String
  count : Int
  counties : List CountyGroup
deriving Repr, DecidableEq

/-- `model.TimeGroup`. -/
structure TimeGroup where
  bucket : GoTime
  count : Int
deriving Repr, DecidableEq

/-- `store.AggResult`: the three aggregation slices. -/
structure AggResult where
  byEventType : List EventTypeGroup := []
  byState : List StateGroup := []
  byHour : List TimeGroup := []
deriving Repr, DecidableEq

/-- One row of the UNION ALL aggregation query, as scanned by
`Store.Aggregations`: the `agg` discriminator, two optional string keys,
the count, and the optional max magnitude, max severity and hour bucket. -/
structure AggRow where
  agg : String
  key1 : Option String
  key2 : Option String
  count : Int
  maxMag : Option GoFloat
  maxSev : Option String
  bucket : Option GoTime
deriving Repr, DecidableEq

/-- `stringOrEmpty`. -/
def stringOrEmpty : Option String → String
  | none => ""
  | some s => s

/-- `unitForEventType` returns the measurement unit for a given event
type. -/
def unitForEventType (et : String) : String :=
  match et with
  | "hail" => "in"
  | "wind" => "mph"
  | "tornado" => "f_scale"
  | _ => ""

/-- The effect of one `state` row on the state groups.  The Go code keeps a
`map[string]*StateGroup` plus a first-seen order slice and mutates the
group in place; that is modelled as an ordered list with distinct states:
the matching group gets `count` added and the county appended, and an
unseen state is appended at the end with a fresh group. -/
def updateStateGroups (groups : List StateGroup) (state county : String) (count : Int) :
    List StateGroup :=
  match groups with
  | [] => [{ state := state, count := count, counties := [{ county := county, count := count }] }]
  | g :: rest =>
      if g.state = state then
        { g with
            count := g.count + count
            counties := g.counties ++ [{ county := county, count := count }] } :: rest
      else g :: updateStateGroups rest state county count

/-- One iteration of the `rows.Next()` loop of `Store.Aggregations`: the
`agg` discriminator routes the row to one of the three result slices.  A
`type` row's max measurement carries the unit mandated for its event type;
a `hour` row with a nil bucket is skipped. -/
def scanAggRow (acc : AggResult) (row : AggRow) : AggResult :=
  if row.agg = "type" then
    let etg : EventTypeGroup :=
      { eventType := stringOrEmpty row.key1
        count := row.count
        maxMeasurement :=
          match row.maxMag with
          | some m =>
              some { magnitude := m, unit := unitForEventType (stringOrEmpty row.key1),
                     severity := none }
          | none => none }
    { acc with byEventType := acc.byEventType ++ [etg] }
  else if row.agg = "state" then
    { acc with
        byState := updateStateGroups acc.byState (stringOrEmpty row.key1)
          (stringOrEmpty row.key2) row.count }
  else if row.agg = "hour" then
    match row.bucket with
    | some b => { acc with byHour := acc.byHour ++ [{ bucket := b, count := row.count }] }
    | none => acc
  else acc

/-- The scanning loop of `Store.Aggregations` over the query's result rows.
In Go the `ByState` slice is assembled from the map after the loop, in
first-seen order; `updateStateGroups` maintains exactly that list as the
loop goes. -/
def aggregationsScan (rows : List AggRow) : AggResult :=
  rows.foldl scanAggRow {}

/-- The state keys of the `state` rows of a result set, in scan order
(`stringOrEmpty key1`, as used by the scanning loop). -/
def stateRowKeys (rows : List AggRow) : List String :=
  (rows.filter fun r => r.agg = "state").map fun r => stringOrEmpty r.key1

/-- First-seen order of a list of keys: the order in which each distinct
key first occurs.  This follows the spec's words for how `ByState` is
ordered, for comparison with the code's fold. -/
def firstSeenOrder (keys : List String) : List String :=
  keys.foldl (fun acc s => if s ∈ acc then acc else acc ++ [s]) []

/- ─── JSON decoding of inbound messages (encoding/json semantics) ─────── -/

/-- A JSON value, as produced by Go `encoding/json` from a syntactically
valid message body. -/
inductive Json : Type where
  | null
  | bool (b : Bool)
  | num (q : ℚ)
  | str (s : String)
  | arr (elems : List Json)
  | obj (fields : List (String × Json))

/-- Field lookup in a JSON object.  Go `encoding/json` lets a later
duplicate of a key overwrite an earlier one, so the last occurrence wins.
The model keeps the exact-tag match; Go additionally falls back to a
case-insensitive match, which is why the unknown-field statement below
requires the key to miss every tag case-insensitively. -/
def jlookup (fields : List (String × Json)) (key : String) : Option Json :=
  fields.foldl (fun acc kv => if kv.1 = key then some kv.2 else acc) none

/-- The case-insensitive key comparison of Go `encoding/json` field
matching (ASCII `strings.EqualFold`, models the standard library). -/
def eqFold (a b : String) : Bool :=
  a.data.map Char.toLower == b.data.map Char.toLower

/-- Decode a JSON value into a Go `string` field: an absent key or a JSON
null leaves the zero value; anything but a string is a type error
(`encoding/json` reports an `UnmarshalTypeError`). -/
def decStr : Option Json → Except String String
  | none => .ok ""
  | some .null => .ok ""
  | some (.str s) => .ok s
  | some _ => .error "cannot unmarshal into Go value of type string"

/-- Decode a JSON value into a Go `float64` field. -/
def decFloat : Option Json → Except String GoFloat
  | none => .ok 0
  | some .null => .ok 0
  | some (.num q) => .ok q
  | some _ => .error "cannot unmarshal into Go value of type float64"

/-- Decode a JSON value into a Go `*float64` field (nil on absence or
null). -/
def decOptFloat : Option Json → Except String (Option GoFloat)
  | none => .ok none
  | some .null => .ok none
  | some (.num q) => .ok (some q)
  | some _ => .error "cannot unmarshal into Go value of type *float64"

/-- Decode a JSON value into a Go `*string` field. -/
def decOptStr : Option Json → Except String (Option String)
  | none => .ok none
  | some .null => .ok none
  | some (.str s) => .ok (some s)
  | some _ => .error "cannot unmarshal into Go value of type *string"

/-- A structural stand-in for the RFC 3339 shape check of Go
`time.Time.UnmarshalJSON` (models the standard library, which is outside
this repository): the separator characters of `2006-01-02T15:04:05Z`
must be in place.  No claim depends on exactly which strings pass. -/
def rfc3339Shape (s : String) : Bool :=
  decide (s.length ≥ 20) && s.data.get? 4 == some '-' && s.data.get? 7 == some '-' &&
    s.data.get? 10 == some 'T' && s.data.get? 13 == some ':' && s.data.get? 16 == some ':'

/-- The Go zero `time.Time`, rendered in RFC 3339. -/
def zeroGoTimeStr : String := "0001-01-01T00:00:00Z"

/-- Decode a JSON value into a Go `time.Time` field: absent or null leaves
the zero value; a string must have RFC 3339 shape; any other JSON type is
an error (models `time.Time.UnmarshalJSON`). -/
def decTime : Option Json → Except String String
  | none => .ok zeroGoTimeStr
  | some .null => .ok zeroGoTimeStr
  | some (.str s) =>
      if rfc3339Shape s then .ok s
      else .error "parsing time: invalid RFC 3339 timestamp"
  | some _ => .error "cannot unmarshal into Go value of type time.Time"

/-- The Go zero value of `model.Geo`. -/
def zeroGeo : Geo := { lat := 0, lon := 0 }

/-- Decode a JSON value into the nested `Geo` struct. -/
def decGeo : Option Json → Except String Geo
  | none => .ok zeroGeo
  | some .null => .ok zeroGeo
  | some (.obj gfields) => do
      let lat ← decFloat (jlookup gfields "lat")
      let lon ← decFloat (jlookup gfields "lon")
      .ok { lat := lat, lon := lon }
  | some _ => .error "cannot unmarshal into Go value of type model.Geo"

/-- The Go zero value of `model.Measurement`. -/
def zeroMeasurement : Measurement := { magnitude := 0, unit := "", severity := none }

/-- Decode a JSON value into the nested `Measurement` struct. -/
def decMeasurement : Option Json → Except String Measurement
  | none => .ok zeroMeasurement
  | some .null => .ok zeroMeasurement
  | some (.obj mfields) => do
      let magnitude ← decFloat (jlookup mfields "magnitude")
      let unit ← decStr (jlookup mfields "unit")
      let severity ← decOptStr (jlookup mfields "severity")
      .ok { magnitude := magnitude, unit := unit, severity := severity }
  | some _ => .error "cannot unmarshal into Go value of type model.Measurement"

/-- The Go zero value of `model.Location`. -/
def zeroLocation : Location :=
  { raw := "", name := "", distance := none, direction := none, state := "", county := "" }

/-- Decode a JSON value into the nested `Location` struct. -/
def decLocation : Option Json → Except String Location
  | none => .ok zeroLocation
  | some .null => .ok zeroLocation
  | some (.obj lfields) => do
      let raw ← decStr (jlookup lfields "raw")
      let name ← decStr (jlookup lfields "name")
      let distance ← decOptFloat (jlookup lfields "distance")
      let direction ← decOptStr (jlookup lfields "direction")
      let state ← decStr (jlookup lfields "state")
      let county ← decStr (jlookup lfields "county")
      .ok { raw := raw, name := name, distance := distance, direction := direction,
            state := state, county := county }
  | some _ => .error "cannot unmarshal into Go value of type model.Location"

/-- The Go zero value of `model.Geocoding`. -/
def zeroGeocoding : Geocoding :=
  { formattedAddress := "", placeName := "", confidence := 0, source := "" }

/-- Decode a JSON value into the nested `Geocoding` struct. -/
def decGeocoding : Option Json → Except String Geocoding
  | none => .ok zeroGeocoding
  | some .null => .ok zeroGeocoding
  | some (.obj gfields) => do
      let formattedAddress ← decStr (jlookup gfields "formatted_address")
      let placeName ← decStr (jlookup gfields "place_name")
      let confidence ← decFloat (jlookup gfields "confidence")
      let source ← decStr (jlookup gfields "source")
      .ok { formattedAddress := formattedAddress, placeName := placeName,
            confidence := confidence, source := source }
  | some _ => .error "cannot unmarshal into Go value of type model.Geocoding"

/-- The Go zero value of `model.StormReport`. -/
def zeroStormReport : StormReport :=
  { id := "", eventType := "", geo := zeroGeo, measurement := zeroMeasurement,
    eventTime := zeroGoTimeStr, location := zeroLocation, comments := "",
    sourceOffice := "", timeBucket := zeroGoTimeStr, processedAt := zeroGoTimeStr,
    geocoding := zeroGeocoding }

/-- The JSON keys `json.Unmarshal` recognises on `model.StormReport` (the
struct tags). -/
def stormReportKeys : List String :=
  ["id", "event_type", "geo", "measurement", "event_time", "location",
   "comments", "source_office", "time_bucket", "processed_at", "geocoding"]

/-- `json.Unmarshal(msg.Value, &report)` for `model.StormReport`: each
tagged field is looked up and decoded by its Go type; keys outside
`stormReportKeys` are ignored; absent keys leave the zero value; a
non-object (other than null) is a type error. -/
def decodeStormReport : Json → Except String StormReport
  | .null => .ok zeroStormReport
  | .obj fields => do
      let id ← decStr (jlookup fields "id")
      let eventType ← decStr (jlookup fields "event_type")
      let geo ← decGeo (jlookup fields "geo")
      let measurement ← decMeasurement (jlookup fields "measurement")
      let eventTime ← decTime (jlookup fields "event_time")
      let location ← decLocation (jlookup fields "location")
      let comments ← decStr (jlookup fields "comments")
      let sourceOffice ← decStr (jlookup fields "source_office")
      let timeBucket ← decTime (jlookup fields "time_bucket")
      let processedAt ← decTime (jlookup fields "processed_at")
      let geocoding ← decGeocoding (jlookup fields "geocoding")
      .ok { id := id, eventType := eventType, geo := geo, measurement := measurement,
            eventTime := eventTime, location := location, comments := comments,
            sourceOffice := sourceOffice, timeBucket := timeBucket,
            processedAt := processedAt, geocoding := geocoding }
  | _ => .error "cannot unmarshal into Go value of type model.StormReport"

/-- `EventType.UnmarshalGQL`: the GraphQL input unmarshaller is the one
place the event type enum is enforced.  It is not on the Kafka decode
path. -/
def eventTypeUnmarshalGQL (v : Json) : Except String EventType :=
  match v with
  | .str s =>
      if EventType.isValid s then .ok s
      else .error ("invalid EventType \"" ++ s ++ "\"")
  | _ => .error "EventType must be a string"

/- ─── Batching consumer (internal/kafka/batch_consumer.go) ────────────── -/

/-- A Kafka message: its partition offset and its (already JSON-parsed)
value. -/
structure KafkaMessage where
  offset : Int
  value : Json

/-- `kafka.batchItem`: a fetched message with its unmarshal result.  The Go
struct holds `report *model.StormReport` and `err error`; `err ≠ nil` marks
a poison pill. -/
structure BatchItem where
  msg : KafkaMessage
  report : Option StormReport
  err : Option String

/-- The per-message classification inside `fetchBatch`: unmarshal the
value; on failure record the error (poison pill), on success record the
report. -/
def classifyMessage (msg : KafkaMessage) : BatchItem :=
  match decodeStormReport msg.value with
  | .ok report => { msg := msg, report := some report, err := none }
  | .error e => { msg := msg, report := none, err := some e }

/-- The messages of the items whose unmarshal failed, in batch order
(`poisonMsgs` in `processBatch`). -/
def poisonMsgs (items : List BatchItem) : List KafkaMessage :=
  (items.filter fun it => it.err.isSome).map fun it => it.msg

/-- The messages of the items that parsed, in batch order (`validMsgs`). -/
def validMsgs (items : List BatchItem) : List KafkaMessage :=
  (items.filter fun it => !it.err.isSome).map fun it => it.msg

/-- The parsed reports, in batch order (`validReports`; the Go slice holds
pointers, hence `Option`). -/
def validReports (items : List BatchItem) : List (Option StormReport) :=
  (items.filter fun it => !it.err.isSome).map fun it => it.report

/-- An externally visible side effect of `processBatch`, in issue order: a
`reader.CommitMessages` call or a `store.InsertStormReports` call. -/
inductive Effect : Type where
  | commitMessages (msgs : List KafkaMessage)
  | insertStormReports (reports : List (Option StormReport))

/-- `processBatch`, as the ordered list of its effects.  `insertOk` is the
outcome of the `InsertStormReports` call: poison offsets are committed
first (their commit error is only logged); with no valid reports the
function returns; otherwise the batch insert runs, and only when it
succeeds are the valid messages' offsets committed. -/
def processBatch (items : List BatchItem) (insertOk : Bool) : List Effect :=
  let commitPoison : List Effect :=
    if (poisonMsgs items).length > 0 then [.commitMessages (poisonMsgs items)] else []
  if (validReports items).length = 0 then commitPoison
  else if insertOk then
    commitPoison ++ [.insertStormReports (validReports items),
                     .commitMessages (validMsgs items)]
  else commitPoison ++ [.insertStormReports (validReports items)]

/- ─── Helper lemmas ───────────────────────────────────────────────────── -/

/-- Reduction of the `Except` monad's bind on a success value. -/
theorem exceptBind_ok {α β : Type} (a : α) (f : α → Except String β) :
    (Except.ok a >>= f) = f a := rfl

/-- Reduction of the `Except` monad's bind on an error value. -/
theorem exceptBind_error {α β : Type} (e : String) (f : α → Except String β) :
    ((Except.error e : Except String α) >>= f) = Except.error e := rfl

/-- An unknown leading key does not change a JSON object lookup. -/
theorem jlookup_cons_ne (k key : String) (v : Json) (fields : List (String × Json))
    (h : k ≠ key) : jlookup ((k, v) :: fields) key = jlookup fields key := by
  simp [jlookup, h]

/- ─── C9 ──────────────────────────────────────────────────────────────── -/

/-- C9: for every non-introspection operation whose selection-set nesting
depth exceeds `MaxDepth`, `DepthLimit.InterceptOperation` rejects it with a
single error whose message contains "exceeds maximum allowed depth"; every
operation whose depth is at most `MaxDepth` is passed through to the next
handler. -/
theorem depthLimit_rejects_deep_passes_shallow (maxDepth : Nat) (selSet : List Selection)
    (hni : isIntrospectionQuery selSet = false) :
    (queryDepth selSet > maxDepth →
      interceptOperation maxDepth selSet =
        OperationResult.rejected (depthErrorMessage (queryDepth selSet) maxDepth) ∧
      ∃ pre post,
        depthErrorMessage (queryDepth selSet) maxDepth =
          pre ++ "exceeds maximum allowed depth" ++ post) ∧
    (queryDepth selSet ≤ maxDepth →
      interceptOperation maxDepth selSet = OperationResult.passthrough) := by
  constructor
  · intro hgt
    refine ⟨by simp [interceptOperation, hni, hgt], ?_⟩
    refine ⟨"query depth " ++ toString (queryDepth selSet) ++ " ",
            " of " ++ toString maxDepth, ?_⟩
    have hsplit : (" exceeds maximum allowed depth of " : String) =
        " " ++ "exceeds maximum allowed depth" ++ " of " := rfl
    simp only [depthErrorMessage, hsplit, String.append_assoc]
  · intro hle
    simp [interceptOperation, hni, Nat.not_lt.mpr hle]

/-- A four-level selection over a three-field schema path, used to witness
the depth limit. -/
def deepQuery4 : List Selection :=
  [.field "stormReports"
    [.field "aggregations"
      [.field "byState"
        [.field "counties" []]]]]

/-- Witness for C9: the four-level query is rejected at `MaxDepth = 3` with
the formatted message, and passed through at `MaxDepth = 7`. -/
theorem depthLimit_rejects_deep_passes_shallow_witness :
    interceptOperation 3 deepQuery4 =
      OperationResult.rejected (depthErrorMessage (queryDepth deepQuery4) 3) ∧
    interceptOperation 7 deepQuery4 = OperationResult.passthrough :=
  ⟨((depthLimit_rejects_deep_passes_shallow 3 deepQuery4 (by decide)).1 (by decide)).1,
   (depthLimit_rejects_deep_passes_shallow 7 deepQuery4 (by decide)).2 (by decide)⟩

/- ─── C10 ─────────────────────────────────────────────────────────────── -/

/-- C10: if any top-level field of an operation has a name beginning with
"__", `DepthLimit.InterceptOperation` skips the depth check entirely: for
every such operation and every `MaxDepth`, the operation is passed through,
however deeply nested its sibling fields are. -/
theorem depthLimit_introspection_bypass (maxDepth : Nat) (selSet : List Selection)
    (h : ∃ name sub, Selection.field name sub ∈ selSet ∧ startsWithDunder name = true) :
    interceptOperation maxDepth selSet = OperationResult.passthrough := by
  obtain ⟨name, sub, hmem, hsw⟩ := h
  have hi : isIntrospectionQuery selSet = true := by
    simp only [isIntrospectionQuery, List.any_eq_true]
    exact ⟨.field name sub, hmem, by simpa using hsw⟩
  simp [interceptOperation, hi]

/-- A query whose first top-level field is `__typename` and whose sibling
field nests four levels deep. -/
def introQuery : List Selection :=
  [.field "__typename" [],
   .field "stormReports"
     [.field "aggregations"
       [.field "byState"
         [.field "counties" []]]]]

/-- Witness for C10: the introspection query passes through even at
`MaxDepth = 1`, below its nesting depth. -/
theorem depthLimit_introspection_bypass_witness :
    interceptOperation 1 introQuery = OperationResult.passthrough :=
  depthLimit_introspection_bypass 1 introQuery
    ⟨"__typename", [], List.mem_cons_self _ _, by decide⟩

/- ─── C1 ──────────────────────────────────────────────────────────────── -/

/-- C1: in `processBatch`, when the batch insert fails the only commit
issued covers the poison messages — no valid message's offset is committed,
so those messages are redelivered; and when the insert succeeds, the commit
of the valid messages' offsets comes immediately after the insert effect. -/
theorem processBatch_offset_safety (items : List BatchItem)
    (hv : validReports items ≠ []) :
    (∀ ms, Effect.commitMessages ms ∈ processBatch items false → ms = poisonMsgs items) ∧
    (∃ k, (processBatch items true)[k]? =
            some (Effect.insertStormReports (validReports items)) ∧
          (processBatch items true)[k + 1]? =
            some (Effect.commitMessages (validMsgs items))) := by
  have hlen : ¬(validReports items).length = 0 := by
    simpa [List.length_eq_zero] using hv
  constructor
  · intro ms hmem
    by_cases hp : (poisonMsgs items).length > 0
    · simp [processBatch, hp, hlen] at hmem
      exact hmem
    · simp [processBatch, hp, hlen] at hmem
  · by_cases hp : (poisonMsgs items).length > 0
    · exact ⟨1, by simp [processBatch, hp, hlen], by simp [processBatch, hp, hlen]⟩
    · exact ⟨0, by simp [processBatch, hp, hlen], by simp [processBatch, hp, hlen]⟩

/-- A concrete two-item batch: one poison pill and one parsed report. -/
def witnessItems : List BatchItem :=
  [{ msg := { offset := 0, value := .str "bad" }, report := none,
     err := some "cannot unmarshal into Go value of type model.StormReport" },
   { msg := { offset := 1, value := .obj [] }, report := some zeroStormReport, err := none }]

/-- Witness for C1 at the concrete batch. -/
theorem processBatch_offset_safety_witness :
    (∀ ms, Effect.commitMessages ms ∈ processBatch witnessItems false →
      ms = poisonMsgs witnessItems) ∧
    (∃ k, (processBatch witnessItems true)[k]? =
            some (Effect.insertStormReports (validReports witnessItems)) ∧
          (processBatch witnessItems true)[k + 1]? =
            some (Effect.commitMessages (validMsgs witnessItems))) :=
  processBatch_offset_safety witnessItems (by simp [validReports, witnessItems])

/- ─── C3 ──────────────────────────────────────────────────────────────── -/

/-- On success, `validateNear` leaves a radius that is present and within
the bound. -/
theorem validateNear_radius_bound (f f1 : StormReportFilter)
    (h : validateNear f = .ok f1) :
    ∀ nf, f1.near = some nf →
      ∃ r, nf.radiusMiles = some r ∧ ¬r > MaxRadiusMiles := by
  intro nf hnf
  unfold validateNear at h
  cases hn : f.near with
  | none =>
      rw [hn] at h
      simp only [Except.ok.injEq] at h
      subst h
      rw [hn] at hnf
      cases hnf
  | some nf0 =>
      rw [hn] at h
      by_cases hr : nf0.radiusMiles.getD DefaultRadiusMiles > MaxRadiusMiles
      · simp [hr] at h
      · simp only [hr, if_false, Except.ok.injEq] at h
        subst h
        simp only at hnf
        cases hnf
        exact ⟨nf0.radiusMiles.getD DefaultRadiusMiles, rfl, hr⟩

/-- On success, `validateNear` turns an absent radius into the default. -/
theorem validateNear_radius_default (f f1 : StormReportFilter)
    (h : validateNear f = .ok f1) :
    ∀ nf0, f.near = some nf0 → nf0.radiusMiles = none →
      f1.near = some { nf0 with radiusMiles := some DefaultRadiusMiles } := by
  intro nf0 hn hrm
  unfold validateNear at h
  rw [hn] at h
  by_cases hr : nf0.radiusMiles.getD DefaultRadiusMiles > MaxRadiusMiles
  · simp [hr] at h
  · simp only [hr, if_false, Except.ok.injEq] at h
    subst h
    simp [hrm]

/-- The stages of `ValidateFilter` after the geo-radius step never touch
`near`. -/
theorem validateFilter_near_after_validateNear (f f' f1 : StormReportFilter)
    (h : validateFilter f = .ok f') (hvn : validateNear f = .ok f1) :
    f'.near = f1.near := by
  unfold validateFilter at h
  split at h
  · cases h
  · rw [hvn] at h
    split at h
    next e heq => cases h
    next f2 heq =>
      injection heq with heq
      subst heq
      split at h
      · cases h
      · split at h
        next e heq2 => cases h
        next heq2 =>
          split at h
          next heq3 =>
            injection h with h
            subst h
            rfl
          next l heq3 =>
            split at h
            · cases h
            · injection h with h
              subst h
              rfl

/-- C3 (amended): for every filter with `near` present, `ValidateFilter`
defaults an omitted `near.radiusMiles` to `DefaultRadiusMiles` (20); and
whenever `ValidateFilter` succeeds the resulting radius is present and at
most `MaxRadiusMiles` (200).  Radii above 200 are rejected with an error,
not capped. -/
theorem validateFilter_radius_default_and_bound (f f' : StormReportFilter)
    (h : validateFilter f = .ok f') :
    (∀ nf, f'.near = some nf → ∃ r, nf.radiusMiles = some r ∧ r ≤ MaxRadiusMiles) ∧
    (∀ nf0, f.near = some nf0 → nf0.radiusMiles = none →
      f'.near = some { nf0 with radiusMiles := some DefaultRadiusMiles }) := by
  have hvn : ∃ f1, validateNear f = .ok f1 := by
    unfold validateFilter at h
    split at h
    · cases h
    · cases hvn : validateNear f with
      | error e => rw [hvn] at h; cases h
      | ok f1 => exact ⟨f1, rfl⟩
  obtain ⟨f1, hvn⟩ := hvn
  have hnear := validateFilter_near_after_validateNear f f' f1 h hvn
  constructor
  · intro nf hnf
    obtain ⟨r, hr, hbound⟩ := validateNear_radius_bound f f1 hvn nf (hnear ▸ hnf)
    exact ⟨r, hr, le_of_not_lt hbound⟩
  · intro nf0 hn hrm
    rw [hnear]
    exact validateNear_radius_default f f1 hvn nf0 hn hrm

/-- A filter whose `near.radiusMiles` is 300, above the 200 cap. -/
def overRadiusFilter : StormReportFilter :=
  { timeRange := { fromTime := 0, toTime := 1 },
    near := some { lat := 0, lon := 0, radiusMiles := some 300 } }

/-- C3 counterexample: a radius above `MaxRadiusMiles` is not capped to
200 — `ValidateFilter` returns an error for it, so there is no successful
return with the radius capped. -/
theorem validateFilter_rejects_over_radius :
    validateFilter overRadiusFilter = .error "near.radiusMiles exceeds maximum of 200" := by
  rfl

/-- A filter with `near` present and the radius omitted. -/
def defaultRadiusFilter : StormReportFilter :=
  { timeRange := { fromTime := 0, toTime := 1 },
    near := some { lat := 1, lon := 2, radiusMiles := none } }

/-- The filter returned by `ValidateFilter` for `defaultRadiusFilter`. -/
def defaultRadiusFilterOut : StormReportFilter :=
  { timeRange := { fromTime := 0, toTime := 1 },
    near := some { lat := 1, lon := 2, radiusMiles := some DefaultRadiusMiles },
    limit := some MaxPageSize }

/-- Witness for C3 (amended) at a concrete filter: the omitted radius comes
back as the 20-mile default. -/
theorem validateFilter_radius_default_and_bound_witness :
    defaultRadiusFilterOut.near =
      some { lat := 1, lon := 2, radiusMiles := some DefaultRadiusMiles } :=
  (validateFilter_radius_default_and_bound defaultRadiusFilter defaultRadiusFilterOut
      (by rfl)).2
    { lat := 1, lon := 2, radiusMiles := none } (by decide) (by decide)

/- ─── C2 ──────────────────────────────────────────────────────────────── -/

/-- A message whose `event_type` is not a known enum value and whose other
required fields are all missing. -/
def bogusTypeMsg : Json := .obj [("event_type", .str "BOGUS")]

/-- C2 counterexample: the consumer's `json.Unmarshal` succeeds on a
message whose `event_type` is not one of the known enum values and which
lacks every other required field, so the message is not classified as a
poison pill — parsing does not fail on unknown enums or missing fields. -/
theorem decode_accepts_unknown_enum_and_missing_fields :
    decodeStormReport bogusTypeMsg = .ok { zeroStormReport with eventType := "BOGUS" } ∧
    EventType.isValid "BOGUS" = false ∧
    decodeStormReport (Json.obj []) = .ok zeroStormReport ∧
    (classifyMessage { offset := 0, value := bogusTypeMsg }).err = none := by
  exact ⟨rfl, rfl, rfl, rfl⟩

/-- C2 (amended): the consumer-side parse ignores unknown fields, fails on
a type mismatch (a present field of the wrong JSON type), and does not
inspect the event-type enum: any string is accepted for `event_type`, and
missing required fields decode to zero values.  The enum check lives only
in the GraphQL input unmarshaller. -/
theorem decode_parse_behaviour :
    (∀ (fields : List (String × Json)) (k : String) (v : Json),
      stormReportKeys.all (fun key => !eqFold k key) = true →
      decodeStormReport (.obj ((k, v) :: fields)) = decodeStormReport (.obj fields)) ∧
    (∀ fields q, jlookup fields "event_type" = some (.num q) →
      ∃ e, decodeStormReport (.obj fields) = .error e) ∧
    (∀ s, decodeStormReport (.obj [("event_type", .str s)]) =
      .ok { zeroStormReport with eventType := s }) ∧
    (∀ s, EventType.isValid s = false →
      eventTypeUnmarshalGQL (.str s) = .error ("invalid EventType \"" ++ s ++ "\"")) := by
  refine ⟨?_, ?_, ?_, ?_⟩
  · intro fields k v hk
    have hne : ∀ key, key ∈ stormReportKeys → k ≠ key := by
      intro key hkey hEq
      have hf := List.all_eq_true.mp hk key hkey
      rw [hEq] at hf
      simp [eqFold] at hf
    simp only [decodeStormReport,
      jlookup_cons_ne k "id" v fields (hne "id" (by simp [stormReportKeys])),
      jlookup_cons_ne k "event_type" v fields (hne "event_type" (by simp [stormReportKeys])),
      jlookup_cons_ne k "geo" v fields (hne "geo" (by simp [stormReportKeys])),
      jlookup_cons_ne k "measurement" v fields (hne "measurement" (by simp [stormReportKeys])),
      jlookup_cons_ne k "event_time" v fields (hne "event_time" (by simp [stormReportKeys])),
      jlookup_cons_ne k "location" v fields (hne "location" (by simp [stormReportKeys])),
      jlookup_cons_ne k "comments" v fields (hne "comments" (by simp [stormReportKeys])),
      jlookup_cons_ne k "source_office" v fields (hne "source_office" (by simp [stormReportKeys])),
      jlookup_cons_ne k "time_bucket" v fields (hne "time_bucket" (by simp [stormReportKeys])),
      jlookup_cons_ne k "processed_at" v fields (hne "processed_at" (by simp [stormReportKeys])),
      jlookup_cons_ne k "geocoding" v fields (hne "geocoding" (by simp [stormReportKeys]))]
  · intro fields q hev
    cases hid : decStr (jlookup fields "id") with
    | error e =>
        refine ⟨e, ?_⟩
        simp only [decodeStormReport, hid, exceptBind_error]
    | ok idv =>
        refine ⟨"cannot unmarshal into Go value of type string", ?_⟩
        simp only [decodeStormReport, hid, hev, exceptBind_ok]
        simp only [decStr, exceptBind_error]
  · intro s
    rfl
  · intro s hs
    simp [eventTypeUnmarshalGQL, hs]

/-- Witness for C2 (amended): dropping an unknown key leaves the decode of
the remaining message unchanged. -/
theorem decode_parse_behaviour_witness :
    decodeStormReport (.obj [("geocoding_extra", .bool true)]) =
      decodeStormReport (.obj []) :=
  decode_parse_behaviour.1 [] "geocoding_extra" (.bool true) (by decide)

/- ─── C4 ──────────────────────────────────────────────────────────────── -/

/-- C4: in per-type mode, every entry of `eventTypeFilters` contributes a
condition whose empty per-type severity falls back to the global severity,
whose absent `minMagnitude` falls back to the global one, and whose absent
`radiusMiles` falls back to `near.radiusMiles` when `near` is present
(explicit per-type values win); and every event type of `eventTypes` absent
from `eventTypeFilters` contributes a condition carrying exactly the global
severity, magnitude and radius. -/
theorem collectTypeConditions_fallbacks (f : StormReportFilter) :
    (∀ tf ∈ f.eventTypeFilters, ∃ tc ∈ collectTypeConditions f,
      tc.eventType = tf.eventType ∧
      (tf.severity = [] → tc.severity = f.severity) ∧
      (tf.severity ≠ [] → tc.severity = tf.severity) ∧
      (tf.minMagnitude = none → tc.minMag = f.minMagnitude) ∧
      (∀ m, tf.minMagnitude = some m → tc.minMag = some m) ∧
      (∀ nf, tf.radiusMiles = none → f.near = some nf → tc.radiusMiles = nf.radiusMiles) ∧
      (∀ r, tf.radiusMiles = some r → tc.radiusMiles = some r)) ∧
    (∀ et ∈ f.eventTypes, (∀ tf ∈ f.eventTypeFilters, tf.eventType ≠ et) →
      ∃ tc ∈ collectTypeConditions f,
        tc.eventType = et ∧ tc.severity = f.severity ∧ tc.minMag = f.minMagnitude ∧
        (∀ nf, f.near = some nf → tc.radiusMiles = nf.radiusMiles) ∧
        (f.near = none → tc.radiusMiles = none)) := by
  constructor
  · intro tf htf
    refine ⟨overrideCondition f tf,
      List.mem_append_left _ (List.mem_map_of_mem (overrideCondition f) htf),
      rfl, ?_, ?_, ?_, ?_, ?_, ?_⟩
    · intro hsev
      simp [overrideCondition, hsev]
    · intro hsev
      have : tf.severity.length > 0 := List.length_pos.mpr hsev
      simp [overrideCondition, this]
    · intro hmm
      simp [overrideCondition, hmm]
    · intro m hmm
      simp [overrideCondition, hmm]
    · intro nf hrm hnear
      simp [overrideCondition, hrm, hnear]
    · intro r hrm
      simp [overrideCondition, hrm]
  · intro et het hno
    have hnm : et ∉ overriddenTypes f := by
      intro hmem
      obtain ⟨tf, htf, hEq⟩ := List.mem_map.mp hmem
      exact hno tf htf hEq
    refine ⟨globalCondition f et, ?_, rfl, rfl, rfl, ?_, ?_⟩
    · refine List.mem_append_right _ (List.mem_map_of_mem (globalCondition f) ?_)
      exact List.mem_filter.mpr ⟨het, by simpa using hnm⟩
    · intro nf hnear
      simp [globalCondition, hnear]
    · intro hnear
      simp [globalCondition, hnear]

/-- A filter with a global severity, one override with empty per-type
severity, and one unoverridden event type. -/
def perTypeFilter : StormReportFilter :=
  { timeRange := { fromTime := 0, toTime := 1 },
    eventTypes := ["HAIL", "WIND"],
    severity := ["SEVERE"],
    eventTypeFilters :=
      [{ eventType := "HAIL", severity := [], minMagnitude := none, radiusMiles := none }] }

/-- Witness for C4: the `HAIL` override with empty per-type severity picks
up the global severity. -/
theorem collectTypeConditions_fallbacks_witness :
    ∃ tc ∈ collectTypeConditions perTypeFilter,
      tc.eventType = "HAIL" ∧ tc.severity = ["SEVERE"] := by
  obtain ⟨tc, hmem, het, hsev, -⟩ :=
    (collectTypeConditions_fallbacks perTypeFilter).1
      { eventType := "HAIL", severity := [], minMagnitude := none, radiusMiles := none }
      (by simp [perTypeFilter])
  exact ⟨tc, hmem, het, hsev rfl⟩

/- ─── Placeholder bookkeeping for the SQL compiler ────────────────────── -/

/-- The placeholders a predicate group mentions, in order. -/
def predsRefs (ps : List Pred) : List Nat := (ps.map Pred.refs).flatten

/-- The refs of an OR group are the concatenated refs of its groups. -/
theorem orGroup_refs (parts : List (List Pred)) :
    Clause.refs (.orGroup parts) = (parts.map predsRefs).flatten := rfl

/-- `clausesRefs` distributes over cons. -/
theorem clausesRefs_cons (c : Clause) (cls : List Clause) :
    clausesRefs (c :: cls) = c.refs ++ clausesRefs cls := rfl

/-- `clausesRefs` distributes over append. -/
theorem clausesRefs_append (c1 c2 : List Clause) :
    clausesRefs (c1 ++ c2) = clausesRefs c1 ++ clausesRefs c2 := by
  simp [clausesRefs]

/-- `buildSingleTypeCondition` is well-indexed: starting at `idx`, its
predicate group references exactly the placeholders `idx` up to
`idx + #args - 1`, and it returns `idx + #args` as the next index. -/
theorem buildSingleTypeCondition_wellIndexed (tc : TypeCondition)
    (near : Option GeoRadiusFilter) (idx : Nat) :
    ∃ ps as, buildSingleTypeCondition tc near idx = (ps, as, idx + as.length) ∧
      predsRefs ps = List.range' idx as.length := by
  unfold buildSingleTypeCondition
  by_cases hs : tc.severity.length > 0 <;>
    rcases hmm : tc.minMag with _ | m <;>
      rcases hnr : near with _ | nf <;>
        rcases hrm : tc.radiusMiles with _ | r <;>
          simp only [hs, if_true, if_false, eq_self_iff_true, buildHaversine] <;>
            exact ⟨_, _, rfl, rfl⟩

/-- The per-type OR loop is well-indexed: it appends one predicate group
per condition, extends the args by exactly the placeholders the groups
mention, and advances the index by the number of appended args. -/
theorem buildOrParts_wellIndexed (near : Option GeoRadiusFilter) (conds : List TypeCondition) :
    ∀ args idx,
      ∃ parts extra, buildOrParts near conds args idx = (parts, args ++ extra, idx + extra.length) ∧
        (parts.map predsRefs).flatten = List.range' idx extra.length ∧
        parts.length = conds.length := by
  induction conds with
  | nil =>
      intro args idx
      exact ⟨[], [], by simp [buildOrParts], by simp, rfl⟩
  | cons tc rest ih =>
      intro args idx
      obtain ⟨ps, as, hb, hr⟩ := buildSingleTypeCondition_wellIndexed tc near idx
      obtain ⟨parts, extra, hb2, hr2, hlen⟩ := ih (args ++ as) (idx + as.length)
      refine ⟨ps :: parts, as ++ extra, ?_, ?_, by simpa using hlen⟩
      · simp [buildOrParts, hb, hb2, List.append_assoc, Nat.add_assoc]
      · simp only [List.map_cons, List.flatten_cons, hr, hr2, List.length_append]
        rw [List.range'_append_1]
        rw [Nat.add_comm extra.length as.length]

/-- `buildEventTypeConditions` is well-indexed: it extends the args by
exactly the placeholders its clauses mention, starting at `idx`, and
advances the index by the number of appended args. -/
theorem buildEventTypeConditions_wellIndexed (gm : GoMath) (f : StormReportFilter)
    (args : List Arg) (idx : Nat) :
    ∃ cls extra,
      buildEventTypeConditions gm f args idx = (cls, args ++ extra, idx + extra.length) ∧
      clausesRefs cls = List.range' idx extra.length := by
  unfold buildEventTypeConditions
  rcases hnear : f.near with _ | nf
  · obtain ⟨parts, extra, hb, hr, -⟩ :=
      buildOrParts_wellIndexed none (collectTypeConditions f) args idx
    refine ⟨[.orGroup parts], extra, ?_, ?_⟩
    · simp [hb]
    · simp [clausesRefs, orGroup_refs, hr]
  · by_cases hr0 : maxRadius (collectTypeConditions f) > 0
    · obtain ⟨parts, extra2, hb2, hr2, -⟩ :=
        buildOrParts_wellIndexed (some nf) (collectTypeConditions f)
          (args ++ (buildBoundingBox gm nf.lat nf.lon
            (maxRadius (collectTypeConditions f)) idx).2.1)
          (idx + 4)
      have hbb : buildBoundingBox gm nf.lat nf.lon (maxRadius (collectTypeConditions f)) idx =
          ([.atom (.boundingBox idx)],
           (buildBoundingBox gm nf.lat nf.lon (maxRadius (collectTypeConditions f)) idx).2.1,
           idx + 4) := rfl
      have hblen : (buildBoundingBox gm nf.lat nf.lon
          (maxRadius (collectTypeConditions f)) idx).2.1.length = 4 := by
        simp [buildBoundingBox]
      refine ⟨[.atom (.boundingBox idx), .orGroup parts],
        (buildBoundingBox gm nf.lat nf.lon
          (maxRadius (collectTypeConditions f)) idx).2.1 ++ extra2, ?_, ?_⟩
      · simp only [hr0, if_true]
        rw [hbb]
        simp only [hb2, Prod.mk.injEq]
        refine ⟨rfl, by simp [List.append_assoc], ?_⟩
        simp only [List.length_append, hblen]
        omega
      · have hatom : Clause.refs (.atom (.boundingBox idx)) = [idx, idx + 1, idx + 2, idx + 3] :=
          rfl
        simp only [clausesRefs, List.map_cons, List.map_nil, List.flatten_cons,
          List.flatten_nil, orGroup_refs, hr2, hatom, List.append_nil,
          List.length_append, hblen]
        rw [show (4 + extra2.length) = extra2.length + 4 from Nat.add_comm _ _]
        rw [← List.range'_append_1 idx 4 extra2.length]
        rfl
    · obtain ⟨parts, extra, hb, hr, -⟩ :=
        buildOrParts_wellIndexed (some nf) (collectTypeConditions f) args idx
      refine ⟨[.orGroup parts], extra, ?_, ?_⟩
      · simp only [hr0, if_false]
        simp [hb]
      · simp [clausesRefs, orGroup_refs, hr]

/-- The simple AND branch is well-indexed: it extends the args by exactly
the placeholders its clauses mention, starting at `idx`, and advances the
index by the number of appended args. -/
theorem buildSimpleConditions_wellIndexed (gm : GoMath) (f : StormReportFilter)
    (args : List Arg) (idx : Nat) :
    ∃ cls extra,
      buildSimpleConditions gm f args idx = (cls, args ++ extra, idx + extra.length) ∧
      clausesRefs cls = List.range' idx extra.length := by
  unfold buildSimpleConditions
  rcases hnear : f.near with _ | nf
  · by_cases het : f.eventTypes.length > 0 <;> by_cases hsev : f.severity.length > 0 <;>
      rcases hmm : f.minMagnitude with _ | m <;>
        simp only [het, hsev, if_true, if_false, List.cons_append, List.singleton_append,
          List.nil_append, List.append_assoc] <;>
        first
          | exact ⟨_, _, rfl, rfl⟩
          | exact ⟨[], [], by simp, rfl⟩
  · rcases hrm : nf.radiusMiles with _ | r <;>
      by_cases het : f.eventTypes.length > 0 <;> by_cases hsev : f.severity.length > 0 <;>
        rcases hmm : f.minMagnitude with _ | m <;>
          simp only [het, hsev, hrm, if_true, if_false, buildGeoClause, buildBoundingBox,
            buildHaversine, List.cons_append, List.singleton_append, List.nil_append,
            List.append_assoc] <;>
          exact ⟨_, _, rfl, rfl⟩

/-- The master shape of `buildWhereClause`: the two time-bound entries and
their args come first, and past them the clause list references exactly the
placeholders `3` up to the number of args, the next index being one past
the last arg. -/
theorem buildWhereClause_shape (gm : GoMath) (f : StormReportFilter) :
    ∃ restC restA,
      buildWhereClause gm f =
        (Clause.atom (.timeGE 1) :: Clause.atom (.timeLE 2) :: restC,
         Arg.timeVal f.timeRange.fromTime :: Arg.timeVal f.timeRange.toTime :: restA,
         restA.length + 3) ∧
      clausesRefs restC = List.range' 3 restA.length := by
  by_cases hst : f.states.length > 0 <;> by_cases hco : f.counties.length > 0 <;>
    by_cases hpt : f.eventTypeFilters.length > 0
  · obtain ⟨cls, extra, hbet, hrefs⟩ := buildEventTypeConditions_wellIndexed gm f
      [Arg.timeVal f.timeRange.fromTime, Arg.timeVal f.timeRange.toTime,
       Arg.strList f.states, Arg.strList f.counties] (3 + 1 + 1)
    refine ⟨Clause.atom (.stateAny 3) :: Clause.atom (.countyAny (3 + 1)) :: cls,
      Arg.strList f.states :: Arg.strList f.counties :: extra, ?_, ?_⟩
    · simp only [buildWhereClause, hst, hco, hpt, if_true, if_false, List.cons_append,
        List.singleton_append, List.nil_append, List.append_assoc, hbet, Prod.mk.injEq]
      simp only [List.length_cons]
      exact ⟨trivial, trivial, by omega⟩
    · have h1 : clausesRefs (Clause.atom (.stateAny 3) ::
          Clause.atom (.countyAny (3 + 1)) :: cls) = 3 :: (3 + 1) :: clausesRefs cls := rfl
      rw [h1, hrefs]
      rfl
  · obtain ⟨cls, extra, hbsc, hrefs⟩ := buildSimpleConditions_wellIndexed gm f
      [Arg.timeVal f.timeRange.fromTime, Arg.timeVal f.timeRange.toTime,
       Arg.strList f.states, Arg.strList f.counties] (3 + 1 + 1)
    refine ⟨Clause.atom (.stateAny 3) :: Clause.atom (.countyAny (3 + 1)) :: cls,
      Arg.strList f.states :: Arg.strList f.counties :: extra, ?_, ?_⟩
    · simp only [buildWhereClause, hst, hco, hpt, if_true, if_false, List.cons_append,
        List.singleton_append, List.nil_append, List.append_assoc, hbsc, Prod.mk.injEq]
      simp only [List.length_cons]
      exact ⟨trivial, trivial, by omega⟩
    · have h1 : clausesRefs (Clause.atom (.stateAny 3) ::
          Clause.atom (.countyAny (3 + 1)) :: cls) = 3 :: (3 + 1) :: clausesRefs cls := rfl
      rw [h1, hrefs]
      rfl
  · obtain ⟨cls, extra, hbet, hrefs⟩ := buildEventTypeConditions_wellIndexed gm f
      [Arg.timeVal f.timeRange.fromTime, Arg.timeVal f.timeRange.toTime,
       Arg.strList f.states] (3 + 1)
    refine ⟨Clause.atom (.stateAny 3) :: cls, Arg.strList f.states :: extra, ?_, ?_⟩
    · simp only [buildWhereClause, hst, hco, hpt, if_true, if_false, List.cons_append,
        List.singleton_append, List.nil_append, List.append_assoc, hbet, Prod.mk.injEq]
      simp only [List.length_cons]
      exact ⟨trivial, trivial, by omega⟩
    · have h1 : clausesRefs (Clause.atom (.stateAny 3) :: cls) =
          3 :: clausesRefs cls := rfl
      rw [h1, hrefs]
      rfl
  · obtain ⟨cls, extra, hbsc, hrefs⟩ := buildSimpleConditions_wellIndexed gm f
      [Arg.timeVal f.timeRange.fromTime, Arg.timeVal f.timeRange.toTime,
       Arg.strList f.states] (3 + 1)
    refine ⟨Clause.atom (.stateAny 3) :: cls, Arg.strList f.states :: extra, ?_, ?_⟩
    · simp only [buildWhereClause, hst, hco, hpt, if_true, if_false, List.cons_append,
        List.singleton_append, List.nil_append, List.append_assoc, hbsc, Prod.mk.injEq]
      simp only [List.length_cons]
      exact ⟨trivial, trivial, by omega⟩
    · have h1 : clausesRefs (Clause.atom (.stateAny 3) :: cls) =
          3 :: clausesRefs cls := rfl
      rw [h1, hrefs]
      rfl
  · obtain ⟨cls, extra, hbet, hrefs⟩ := buildEventTypeConditions_wellIndexed gm f
      [Arg.timeVal f.timeRange.fromTime, Arg.timeVal f.timeRange.toTime,
       Arg.strList f.counties] (3 + 1)
    refine ⟨Clause.atom (.countyAny 3) :: cls, Arg.strList f.counties :: extra, ?_, ?_⟩
    · simp only [buildWhereClause, hst, hco, hpt, if_true, if_false, List.cons_append,
        List.singleton_append, List.nil_append, List.append_assoc, hbet, Prod.mk.injEq]
      simp only [List.length_cons]
      exact ⟨trivial, trivial, by omega⟩
    · have h1 : clausesRefs (Clause.atom (.countyAny 3) :: cls) =
          3 :: clausesRefs cls := rfl
      rw [h1, hrefs]
      rfl
  · obtain ⟨cls, extra, hbsc, hrefs⟩ := buildSimpleConditions_wellIndexed gm f
      [Arg.timeVal f.timeRange.fromTime, Arg.timeVal f.timeRange.toTime,
       Arg.strList f.counties] (3 + 1)
    refine ⟨Clause.atom (.countyAny 3) :: cls, Arg.strList f.counties :: extra, ?_, ?_⟩
    · simp only [buildWhereClause, hst, hco, hpt, if_true, if_false, List.cons_append,
        List.singleton_append, List.nil_append, List.append_assoc, hbsc, Prod.mk.injEq]
      simp only [List.length_cons]
      exact ⟨trivial, trivial, by omega⟩
    · have h1 : clausesRefs (Clause.atom (.countyAny 3) :: cls) =
          3 :: clausesRefs cls := rfl
      rw [h1, hrefs]
      rfl
  · obtain ⟨cls, extra, hbet, hrefs⟩ := buildEventTypeConditions_wellIndexed gm f
      [Arg.timeVal f.timeRange.fromTime, Arg.timeVal f.timeRange.toTime] 3
    refine ⟨cls, extra, ?_, hrefs⟩
    simp only [buildWhereClause, hst, hco, hpt, if_true, if_false, List.cons_append,
      List.singleton_append, List.nil_append, List.append_assoc, hbet, Prod.mk.injEq]
    exact ⟨trivial, trivial, by omega⟩
  · obtain ⟨cls, extra, hbsc, hrefs⟩ := buildSimpleConditions_wellIndexed gm f
      [Arg.timeVal f.timeRange.fromTime, Arg.timeVal f.timeRange.toTime] 3
    refine ⟨cls, extra, ?_, hrefs⟩
    simp only [buildWhereClause, hst, hco, hpt, if_true, if_false, List.cons_append,
      List.singleton_append, List.nil_append, List.append_assoc, hbsc, Prod.mk.injEq]
    exact ⟨trivial, trivial, by omega⟩

/- ─── C6 ──────────────────────────────────────────────────────────────── -/

/-- C6: for every filter, in both simple and per-type mode,
`buildWhereClause` emits the two time-bound predicates
`event_time >= $1` and `event_time <= $2` as its first two conjuncts, with
`timeRange.from` and `timeRange.to` as the first two arguments. -/
theorem buildWhereClause_time_bounds_first (gm : GoMath) (f : StormReportFilter) :
    (buildWhereClause gm f).1.take 2 =
      [Clause.atom (.timeGE 1), Clause.atom (.timeLE 2)] ∧
    (buildWhereClause gm f).2.1.take 2 =
      [Arg.timeVal f.timeRange.fromTime, Arg.timeVal f.timeRange.toTime] := by
  obtain ⟨restC, restA, heq, -⟩ := buildWhereClause_shape gm f
  rw [heq]
  exact ⟨rfl, rfl⟩

/- ─── C7 ──────────────────────────────────────────────────────────────── -/

/-- C7: for every filter, `buildWhereClause` returns `(clauses, args, idx)`
with `idx = len(args) + 1` and the clauses referencing exactly the
positional placeholders `$1 .. $len(args)` in order; `ListStormReports`
runs the count query with exactly those args and the data query with the
same argument prefix plus the limit and offset values appended at positions
`$idx` and `$idx+1`. -/
theorem buildWhereClause_positional_indexing (gm : GoMath) (f : StormReportFilter)
    (l o : Int) (hl : f.limit = some l) (ho : f.offset = some o) :
    (buildWhereClause gm f).2.2 = (buildWhereClause gm f).2.1.length + 1 ∧
    clausesRefs (buildWhereClause gm f).1 =
      List.range' 1 (buildWhereClause gm f).2.1.length ∧
    (listStormReportsPlan gm f).countArgs = (buildWhereClause gm f).2.1 ∧
    (listStormReportsPlan gm f).dataArgs =
      (buildWhereClause gm f).2.1 ++ [Arg.intVal l, Arg.intVal o] ∧
    (listStormReportsPlan gm f).limitPlaceholder = some (buildWhereClause gm f).2.2 ∧
    (listStormReportsPlan gm f).offsetPlaceholder =
      some ((buildWhereClause gm f).2.2 + 1) := by
  obtain ⟨restC, restA, heq, hrefs⟩ := buildWhereClause_shape gm f
  refine ⟨?_, ?_, ?_, ?_, ?_, ?_⟩
  · rw [heq]
    simp only [List.length_cons]
  · rw [heq]
    rw [show clausesRefs (Clause.atom (.timeGE 1) :: Clause.atom (.timeLE 2) :: restC) =
      1 :: 2 :: clausesRefs restC from rfl, hrefs]
    rfl
  · simp [listStormReportsPlan, heq, hl, ho]
  · simp [listStormReportsPlan, heq, hl, ho]
  · simp [listStormReportsPlan, heq, hl, ho]
  · simp [listStormReportsPlan, heq, hl, ho]

/-- A `GoMath` instance for witnesses; its values never matter. -/
def gmW : GoMath := { cos := fun _ => 1, pi := 3 }

/-- A concrete validated-looking filter with limit and offset present. -/
def pagedFilter : StormReportFilter :=
  { timeRange := { fromTime := 0, toTime := 10 },
    states := ["TX"],
    limit := some 20,
    offset := some 5 }

/-- Witness for C7 at a concrete filter. -/
theorem buildWhereClause_positional_indexing_witness :
    (buildWhereClause gmW pagedFilter).2.2 =
      (buildWhereClause gmW pagedFilter).2.1.length + 1 ∧
    clausesRefs (buildWhereClause gmW pagedFilter).1 =
      List.range' 1 (buildWhereClause gmW pagedFilter).2.1.length ∧
    (listStormReportsPlan gmW pagedFilter).countArgs =
      (buildWhereClause gmW pagedFilter).2.1 ∧
    (listStormReportsPlan gmW pagedFilter).dataArgs =
      (buildWhereClause gmW pagedFilter).2.1 ++ [Arg.intVal 20, Arg.intVal 5] ∧
    (listStormReportsPlan gmW pagedFilter).limitPlaceholder =
      some (buildWhereClause gmW pagedFilter).2.2 ∧
    (listStormReportsPlan gmW pagedFilter).offsetPlaceholder =
      some ((buildWhereClause gmW pagedFilter).2.2 + 1) :=
  buildWhereClause_positional_indexing gmW pagedFilter 20 5 rfl rfl

/- ─── C5 ──────────────────────────────────────────────────────────────── -/

/-- C5: in per-type mode with `near` present, when the largest per-type
radius is positive the compiler emits exactly one bounding-box predicate,
computed from that largest radius, immediately before the per-type OR
disjunction; when the largest radius is 0 no bounding-box predicate is
emitted but the OR disjunction still is.  The disjunction always has one
group per collected type condition. -/
theorem perType_boundingBox_structure (gm : GoMath) (f : StormReportFilter)
    (nf : GeoRadiusFilter) (args : List Arg) (idx : Nat)
    (_hpt : f.eventTypeFilters ≠ []) (hnear : f.near = some nf) :
    (0 < maxRadius (collectTypeConditions f) →
      ∃ parts rest n,
        buildEventTypeConditions gm f args idx =
          ([Clause.atom (.boundingBox idx), Clause.orGroup parts],
           args ++ (buildBoundingBox gm nf.lat nf.lon
             (maxRadius (collectTypeConditions f)) idx).2.1 ++ rest, n) ∧
        parts.length = (collectTypeConditions f).length) ∧
    (maxRadius (collectTypeConditions f) = 0 →
      ∃ parts rest n,
        buildEventTypeConditions gm f args idx =
          ([Clause.orGroup parts], args ++ rest, n) ∧
        parts.length = (collectTypeConditions f).length) := by
  constructor
  · intro hr0
    obtain ⟨parts, extra2, hb2, -, hlen⟩ :=
      buildOrParts_wellIndexed (some nf) (collectTypeConditions f)
        (args ++ (buildBoundingBox gm nf.lat nf.lon
          (maxRadius (collectTypeConditions f)) idx).2.1) (idx + 4)
    have hbb : buildBoundingBox gm nf.lat nf.lon (maxRadius (collectTypeConditions f)) idx =
        ([.atom (.boundingBox idx)],
         (buildBoundingBox gm nf.lat nf.lon (maxRadius (collectTypeConditions f)) idx).2.1,
         idx + 4) := rfl
    refine ⟨parts, extra2, idx + 4 + extra2.length, ?_, hlen⟩
    unfold buildEventTypeConditions
    rw [hnear]
    simp only [gt_iff_lt, hr0, if_true]
    rw [hbb]
    simp only [hb2, Prod.mk.injEq, true_and, and_true]
    rfl
  · intro hr0
    obtain ⟨parts, extra, hb, -, hlen⟩ :=
      buildOrParts_wellIndexed (some nf) (collectTypeConditions f) args idx
    refine ⟨parts, extra, idx + extra.length, ?_, hlen⟩
    unfold buildEventTypeConditions
    rw [hnear]
    have hnr : ¬maxRadius (collectTypeConditions f) > 0 := by
      rw [hr0]
      exact lt_irrefl 0
    simp only [hnr, if_false]
    simp [hb]

/-- A per-type filter with `near` present and a positive per-type radius. -/
def perTypeGeoFilter : StormReportFilter :=
  { timeRange := { fromTime := 0, toTime := 10 },
    near := some { lat := 1, lon := 2, radiusMiles := some 20 },
    eventTypeFilters :=
      [{ eventType := "TORNADO", severity := [], minMagnitude := none,
         radiusMiles := some 100 }] }

/-- Witness for C5: at the concrete per-type filter the bounding box over
the largest radius (100) is emitted first, followed by the OR group. -/
theorem perType_boundingBox_structure_witness :
    ∃ parts rest n,
      buildEventTypeConditions gmW perTypeGeoFilter [] 1 =
        ([Clause.atom (.boundingBox 1), Clause.orGroup parts],
         [] ++ (buildBoundingBox gmW (1 : GoFloat) (2 : GoFloat)
           (maxRadius (collectTypeConditions perTypeGeoFilter)) 1).2.1 ++ rest, n) ∧
      parts.length = (collectTypeConditions perTypeGeoFilter).length :=
  (perType_boundingBox_structure gmW perTypeGeoFilter
      { lat := 1, lon := 2, radiusMiles := some 20 } [] 1
      (by decide) rfl).1 (by decide)

/- ─── C8 ──────────────────────────────────────────────────────────────── -/

/-- A state group is consistent when its count is the sum of its county
counts. -/
def stateInv (g : StateGroup) : Prop :=
  g.count = (g.counties.map (fun c => c.count)).sum

/-- `updateStateGroups` preserves state-county consistency. -/
theorem updateStateGroups_inv (groups : List StateGroup) (s c : String) (n : Int)
    (h : ∀ g ∈ groups, stateInv g) :
    ∀ g ∈ updateStateGroups groups s c n, stateInv g := by
  induction groups with
  | nil =>
      intro g hg
      simp only [updateStateGroups, List.mem_singleton] at hg
      subst hg
      simp [stateInv]
  | cons g0 rest ih =>
      intro g hg
      by_cases hs : g0.state = s
      · simp only [updateStateGroups, hs, if_true, List.mem_cons] at hg
        rcases hg with hg | hg
        · subst hg
          have h0 := h g0 (List.mem_cons_self _ _)
          simp only [stateInv] at h0 ⊢
          simp [h0, List.sum_append]
        · exact h g (List.mem_cons_of_mem _ hg)
      · simp only [updateStateGroups, hs, if_false, List.mem_cons] at hg
        rcases hg with hg | hg
        · subst hg
          exact h _ (List.mem_cons_self _ _)
        · exact ih (fun g' hg' => h g' (List.mem_cons_of_mem _ hg')) g hg

/-- `updateStateGroups` keeps first-seen order: a known state leaves the
state list unchanged, an unseen one is appended at the end. -/
theorem updateStateGroups_states (groups : List StateGroup) (s c : String) (n : Int) :
    (updateStateGroups groups s c n).map (fun g => g.state) =
      if s ∈ groups.map (fun g => g.state) then groups.map (fun g => g.state)
      else groups.map (fun g => g.state) ++ [s] := by
  induction groups with
  | nil => simp [updateStateGroups]
  | cons g0 rest ih =>
      by_cases hs : g0.state = s
      · simp [updateStateGroups, hs]
      · have hne : ¬s = g0.state := fun hEq => hs hEq.symm
        simp only [updateStateGroups, hs, if_false, List.map_cons, ih, List.mem_cons, hne,
          false_or]
        by_cases hmem : s ∈ rest.map (fun g => g.state) <;> simp [hmem]

/-- A non-`state` row leaves the state groups untouched. -/
theorem scanAggRow_byState_other (acc : AggResult) (row : AggRow)
    (h : row.agg ≠ "state") : (scanAggRow acc row).byState = acc.byState := by
  unfold scanAggRow
  by_cases h1 : row.agg = "type" <;> by_cases h2 : row.agg = "state" <;>
    by_cases h3 : row.agg = "hour" <;>
      simp only [h1, h2, h3, if_true, if_false] <;>
        first
          | rfl
          | exact absurd h2 h
          | (rcases hb : row.bucket with _ | b <;> rfl)

/-- A `state` row folds into the state groups through
`updateStateGroups`. -/
theorem scanAggRow_byState_state (acc : AggResult) (row : AggRow)
    (h : row.agg = "state") :
    (scanAggRow acc row).byState =
      updateStateGroups acc.byState (stringOrEmpty row.key1) (stringOrEmpty row.key2)
        row.count := by
  unfold scanAggRow
  by_cases h1 : row.agg = "type"
  · exact absurd (h.symm.trans h1) (by decide)
  · simp only [h1, h, if_true, if_false]
    rfl

/-- Through the whole scan, every state group stays state-county
consistent. -/
theorem scan_byState_inv (rows : List AggRow) :
    ∀ acc : AggResult, (∀ g ∈ acc.byState, stateInv g) →
      ∀ g ∈ (rows.foldl scanAggRow acc).byState, stateInv g := by
  induction rows with
  | nil => intro acc h; simpa using h
  | cons row rows ih =>
      intro acc h
      rw [List.foldl_cons]
      refine ih (scanAggRow acc row) ?_
      by_cases hs : row.agg = "state"
      · rw [scanAggRow_byState_state acc row hs]
        exact updateStateGroups_inv acc.byState _ _ _ h
      · rw [scanAggRow_byState_other acc row hs]
        exact h

/-- Through the whole scan, the state list is the first-seen fold of the
`state` rows' keys. -/
theorem scan_byState_states (rows : List AggRow) :
    ∀ acc : AggResult,
      (rows.foldl scanAggRow acc).byState.map (fun g => g.state) =
        (stateRowKeys rows).foldl (fun a s => if s ∈ a then a else a ++ [s])
          (acc.byState.map (fun g => g.state)) := by
  induction rows with
  | nil => intro acc; simp [stateRowKeys]
  | cons row rows ih =>
      intro acc
      rw [List.foldl_cons, ih (scanAggRow acc row)]
      by_cases hs : row.agg = "state"
      · have hk : stateRowKeys (row :: rows) = stringOrEmpty row.key1 :: stateRowKeys rows := by
          simp [stateRowKeys, List.filter_cons, hs]
        rw [hk, List.foldl_cons, scanAggRow_byState_state acc row hs,
          updateStateGroups_states]
      · have hk : stateRowKeys (row :: rows) = stateRowKeys rows := by
          simp [stateRowKeys, List.filter_cons, hs]
        rw [hk, scanAggRow_byState_other acc row hs]

/-- C8: in the result of `Aggregations`, every state group's count equals
the sum of its county counts, and `ByState` lists the states in the order
in which each state's first row was encountered during the scan. -/
theorem aggregations_state_consistency (rows : List AggRow) :
    (∀ g ∈ (aggregationsScan rows).byState,
      g.count = (g.counties.map (fun c => c.count)).sum) ∧
    (aggregationsScan rows).byState.map (fun g => g.state) =
      firstSeenOrder (stateRowKeys rows) := by
  constructor
  · exact scan_byState_inv rows {} (by simp)
  · have h := scan_byState_states rows {}
    simpa [aggregationsScan, firstSeenOrder] using h

/-- Concrete aggregation rows: two states, interleaved, three county
rows. -/
def aggRowsW : List AggRow :=
  [{ agg := "type", key1 := some "hail", key2 := none, count := 7, maxMag := some 2,
     maxSev := none, bucket := none },
   { agg := "state", key1 := some "TX", key2 := some "San Saba", count := 4, maxMag := none,
     maxSev := none, bucket := none },
   { agg := "state", key1 := some "OK", key2 := some "Tulsa", count := 2, maxMag := none,
     maxSev := none, bucket := none },
   { agg := "state", key1 := some "TX", key2 := some "Dallas", count := 3, maxMag := none,
     maxSev := none, bucket := none }]

/-- Witness for C8 at the concrete rows: TX folds to 4 + 3 with two
counties, and the order is TX before OK (first-seen). -/
theorem aggregations_state_consistency_witness :
    (∀ g ∈ (aggregationsScan aggRowsW).byState,
      g.count = (g.counties.map (fun c => c.count)).sum) ∧
    (aggregationsScan aggRowsW).byState.map (fun g => g.state) =
      firstSeenOrder (stateRowKeys aggRowsW) :=
  aggregations_state_consistency aggRowsW

end Storm
